import Mathlib

/-!
Verification development for a single-file Flask URL shortener (`app.py`).

The embedding models:
* the URL validator `validate_and_normalize_url`, including the parts of
  CPython's `urllib.parse.urlparse` that the app consumes (only the
  `scheme` and `netloc` components are ever read by `app.py`, so only
  those two components are modelled; `path`/`query`/`fragment` are never
  used).  The scheme-splitting rule follows modern CPython (3.11+):
  a scheme is recognised when the text before the first `:` is nonempty,
  starts with an ASCII letter and consists of letters, digits, `+`, `-`,
  `.`; the recognised scheme is lowercased.  Tab/CR/LF characters are
  removed before parsing.  The `ValueError` raised for unbalanced IPv6
  brackets and the NFKC netloc check are not modelled (no claim touches
  them, and none of the inputs below reach those paths).
* the random code generator `generate_code`, with the random source
  `secrets.choice(ALPHABET)` modelled as an oracle giving, for each
  attempt and character position, an index into `ALPHABET`, and the
  unbounded retry loop modelled with explicit fuel (`none` = the real
  loop is still running after `fuel` draws).
* the SQLite table `urls` as a list of records keyed by `code`
  (`SELECT ... WHERE code = ?` = first record with that code;
  `INSERT` = append; `UPDATE ... clicks = clicks + 1 WHERE code = ?` =
  pointwise bump of every matching record).  SQLite `INTEGER` is
  modelled as `Int` (64-bit overflow is out of scope for a counter that
  only ever advances by 1 from 0).
* the three request handlers `shorten`, `redirect_code`, `stats` as pure
  state transformers; Flask responses are an inductive that keeps the
  distinction between a plain-text body (`return "Not found", 404`),
  the various `jsonify(...)` bodies, and a `redirect(...)` (302 +
  Location).

Python character predicates (`str.strip`'s whitespace set, `str.isalnum`)
are Unicode-aware; they are modelled exactly on the ASCII and Latin-1
ranges, which covers every character exercised below, and conservatively
return `false` above U+00FF (documented at each definition).
-/

/-- Models Python `str.isspace` / the default `str.strip` character set on
the Latin-1 range: ASCII whitespace, the C1 separators 0x1C-0x1F, NEL
(0x85) and NBSP (0xA0).  Unicode space characters above U+00FF are not
modelled (conservatively `false`). -/
def pyIsSpace (c : Char) : Bool :=
  c = ' ' || c = '\t' || c = '\n' || c = '\r' ||
  c.toNat = 0x0B || c.toNat = 0x0C ||
  (0x1C ≤ c.toNat && c.toNat ≤ 0x1F) || c.toNat = 0x85 || c.toNat = 0xA0

/-- Models Python `str.isalnum` per character (Unicode alphanumeric).
Exact on ASCII (`Char.isAlphanum`) and on the Latin-1 supplement, where
U+00C0-U+00FF are letters except the two operators × (U+00D7) and
÷ (U+00F7), and µ (U+00B5), ª (U+00AA), º (U+00BA), ¹ ² ³ (U+00B9, U+00B2,
U+00B3) and the vulgar fractions ¼ ½ ¾ (U+00BC-U+00BE) are alphanumeric.
Characters above U+00FF are not modelled (conservatively `false`); no
claim below depends on them. -/
def pyIsAlnum (c : Char) : Bool :=
  c.isAlphanum ||
  (0xC0 ≤ c.toNat && c.toNat ≤ 0xFF && c.toNat ≠ 0xD7 && c.toNat ≠ 0xF7) ||
  c.toNat = 0xB5 || c.toNat = 0xAA || c.toNat = 0xBA ||
  c.toNat = 0xB9 || c.toNat = 0xB2 || c.toNat = 0xB3 ||
  (0xBC ≤ c.toNat && c.toNat ≤ 0xBE)

/-- CPython `urllib.parse.scheme_chars`: ASCII letters, digits, `+-.`. -/
def schemeChar (c : Char) : Bool :=
  c.isAlpha || c.isDigit || c = '+' || c = '-' || c = '.'

/-- Python `str.strip()` on a character list (both ends). -/
def trimChars (l : List Char) : List Char :=
  ((l.dropWhile pyIsSpace).reverse.dropWhile pyIsSpace).reverse

/-- Python `str.strip()`. -/
def pyStrip (s : String) : String :=
  String.mk (trimChars s.data)

/-- Split a character list at the first `:`; `none` when there is no
colon (CPython: `i = url.find(':')`, with `i > 0` checked by the caller
via nonemptiness of the prefix). -/
def splitAtFirstColon : List Char → Option (List Char × List Char)
  | [] => none
  | c :: cs =>
    if c = ':' then some ([], cs)
    else
      match splitAtFirstColon cs with
      | none => none
      | some (pre, post) => some (c :: pre, post)

/-- CPython `urlsplit` removes `\t`, `\r`, `\n` from the URL before
parsing (`_UNSAFE_URL_BYTES_TO_REMOVE`). -/
def removeUnsafeBytes (l : List Char) : List Char :=
  l.filter (fun c => ¬ (c = '\t' || c = '\r' || c = '\n'))

/-- CPython `urlsplit` scheme recognition: if the text before the first
`:` is nonempty, starts with an ASCII letter, and consists of
`scheme_chars` only, it is the (lowercased) scheme and the rest follows
the colon; otherwise the scheme is empty and the whole input remains. -/
def splitSchemeList (url : List Char) : List Char × List Char :=
  match splitAtFirstColon url with
  | none => ([], url)
  | some (pre, post) =>
    match pre with
    | [] => ([], url)
    | c0 :: _ =>
      if c0.toNat ≤ 0x7F && c0.isAlpha && pre.all schemeChar then
        (pre.map Char.toLower, post)
      else ([], url)

/-- CPython `_splitnetloc`: when the remainder starts with `//`, the
netloc is everything up to the next `/`, `?` or `#`. -/
def netlocOf : List Char → List Char
  | '/' :: '/' :: rest => rest.takeWhile (fun c => ¬ (c = '/' || c = '?' || c = '#'))
  | _ => []

/-- The two components of a parse result that `app.py` reads. -/
structure UrlParts where
  scheme : String
  netloc : String
deriving DecidableEq

/-- Models `urllib.parse.urlparse`, restricted to the `scheme` and
`netloc` components (the only ones `app.py` uses). -/
def urlparse (s : String) : UrlParts :=
  let u := removeUnsafeBytes s.data
  let sp := splitSchemeList u
  ⟨String.mk sp.1, String.mk (netlocOf sp.2)⟩

/-- `validate_and_normalize_url` from `app.py`:
falsy (empty) input fails; the input is stripped; if parsing finds no
scheme, `http://` is prepended and the result re-parsed; the parsed
scheme must be `http` or `https` and the netloc nonempty; on success the
(possibly prefixed) stripped string is returned unchanged. -/
def validate_and_normalize_url (url : String) : Option String :=
  if url = "" then none
  else
    let url1 := pyStrip url
    let parsed1 := urlparse url1
    let step2 : String × UrlParts :=
      if parsed1.scheme = "" then
        ("http://" ++ url1, urlparse ("http://" ++ url1))
      else (url1, parsed1)
    if ¬ (step2.2.scheme = "http" ∨ step2.2.scheme = "https") then none
    else if step2.2.netloc = "" then none
    else some step2.1

/-- `ALPHABET = string.ascii_letters + string.digits` from `app.py`
(lowercase then uppercase then digits, 62 symbols). -/
def ALPHABET : List Char :=
  "abcdefghijklmnopqrstuvwxyzABCDEFGHIJKLMNOPQRSTUVWXYZ0123456789".data

/-- `SHORT_CODE_LENGTH = 6` from `app.py`. -/
def SHORT_CODE_LENGTH : Nat := 6

/-- The random source of `generate_code`: `secrets.choice(ALPHABET)` is
modelled by an oracle giving, for attempt `i` and character position `j`,
an index into `ALPHABET` (so every draw is by construction a member of
the alphabet, exactly as `secrets.choice` returns a member of its
argument). -/
abbrev RandOracle : Type := Nat → Nat → Fin ALPHABET.length

/-- One candidate code:
`''.join(secrets.choice(ALPHABET) for _ in range(length))` at attempt
`i`. -/
def drawCode (rho : RandOracle) (i : Nat) (length : Nat) : String :=
  String.mk ((List.range length).map (fun j => ALPHABET.get (rho i j)))

/-- A persisted row of the `urls` table. -/
structure UrlRecord where
  code : String
  url : String
  created_at : Nat
  clicks : Int
deriving DecidableEq

/-- The `urls` table. -/
abbrev Store : Type := List UrlRecord

/-- `SELECT ... FROM urls WHERE code = ?` + `fetchone()`: the first row
with the given code. -/
def lookup (st : Store) (code : String) : Option UrlRecord :=
  st.find? (fun r => r.code = code)

/-- Row-existence check (`fetchone() is None` / truthiness in `app.py`). -/
def existsCode (st : Store) (code : String) : Bool :=
  (lookup st code).isSome

/-- `UPDATE urls SET clicks = clicks + 1 WHERE code = ?`. -/
def incrementClicks (st : Store) (code : String) : Store :=
  st.map (fun r => if r.code = code then ⟨r.code, r.url, r.created_at, r.clicks + 1⟩ else r)

/-- The retry loop of `generate_code`, with the attempt index made
explicit and fuel bounding how many draws the model unrolls (`none` =
the real unbounded loop has not yet returned after `fuel` draws). -/
def genLoop (rho : RandOracle) (length : Nat) (st : Store) : Nat → Nat → Option String
  | _, 0 => none
  | i, fuel + 1 =>
    let code := drawCode rho i length
    if existsCode st code then genLoop rho length st (i + 1) fuel
    else some code

/-- `generate_code(length)` from `app.py`: draw a candidate, return it if
unused, otherwise retry. -/
def generate_code (rho : RandOracle) (length : Nat) (st : Store) (fuel : Nat) : Option String :=
  genLoop rho length st 0 fuel

/-- A Flask response as produced by the three handlers.  The constructor
records which body shape the source builds: a bare string with a status
(`return "Not found", 404` — not JSON), `jsonify({'error': ...})`,
`jsonify({'short_url': ...})`, `jsonify(dict(row))` for stats, or
`redirect(url)` (302 + Location). -/
inductive Resp where
  | textResp (status : Nat) (body : String)
  | jsonErr (status : Nat) (error : String)
  | jsonShort (status : Nat) (short_url : String)
  | jsonStats (status : Nat) (code : String) (url : String) (created_at : Nat) (clicks : Int)
  | redirectResp (status : Nat) (location : String)
deriving DecidableEq

/-- The HTTP status of a response. -/
def Resp.status : Resp → Nat
  | .textResp s _ => s
  | .jsonErr s _ => s
  | .jsonShort s _ => s
  | .jsonStats s _ _ _ _ => s
  | .redirectResp s _ => s

/-- Whether the response body is JSON (`jsonify(...)`): a bare string
body and a redirect body are not. -/
def Resp.isJsonBody : Resp → Bool
  | .textResp _ _ => false
  | .redirectResp _ _ => false
  | _ => true

/-- The custom-code character check from `shorten`:
`all(c.isalnum() or c in ('-','_') for c in custom)`. -/
def validCustomChars (custom : String) : Bool :=
  custom.data.all (fun c => pyIsAlnum c || c = '-' || c = '_')

/-- Python truthiness of the `custom` field (`if custom:`): `None` and
the empty string both mean "no custom code requested". -/
def customRequested : Option String → Option String
  | none => none
  | some c => if c = "" then none else some c

/-- Python `str.rstrip('/')` (used on `request.host_url`). -/
def pyRstripSlash (s : String) : String :=
  String.mk (s.data.reverse.dropWhile (fun c => c = '/')).reverse

/-- The shared tail of `shorten`: `INSERT INTO urls ... VALUES
(code, url, now, 0)` followed by the 201 response with
`request.host_url.rstrip('/') + '/' + code`. -/
def finishShorten (code : String) (url : String) (host_url : String) (now : Nat)
    (st : Store) : Resp × Store :=
  (Resp.jsonShort 201 (pyRstripSlash host_url ++ "/" ++ code), st ++ [⟨code, url, now, 0⟩])

/-- The parsed request body of `POST /shorten`: `payload.get('url')` and
`payload.get('custom')`. -/
structure ShortenReq where
  url : Option String
  custom : Option String
deriving DecidableEq

/-- `validate_and_normalize_url(payload.get('url'))`: the argument may be
`None`, which the validator's `if not url` guard treats like the empty
string (both are falsy). -/
def validateOptUrl : Option String → Option String
  | none => none
  | some u => validate_and_normalize_url u

/-- The `shorten` handler.  `host_url` is `request.host_url`, `now` is
`datetime.utcnow()`, `rho`/`fuel` drive the `generate_code` model.  The
result is `none` only when the random-code retry loop is still running
after `fuel` draws (the real loop has no bound). -/
def shorten (req : ShortenReq) (host_url : String) (now : Nat) (rho : RandOracle)
    (fuel : Nat) (st : Store) : Option (Resp × Store) :=
  match validateOptUrl req.url with
  | none => some (Resp.jsonErr 400 "Invalid URL", st)
  | some url =>
    match customRequested req.custom with
    | some custom =>
      if ¬ validCustomChars custom then
        some (Resp.jsonErr 400 "Invalid characters in custom code", st)
      else if existsCode st custom then
        some (Resp.jsonErr 409 "Custom code in use", st)
      else
        some (finishShorten custom url host_url now st)
    | none =>
      match generate_code rho SHORT_CODE_LENGTH st fuel with
      | none => none
      | some code => some (finishShorten code url host_url now st)

/-- The `redirect_code` handler for `GET /<code>`: unknown code gives the
plain-text 404, otherwise the click counter is bumped and a 302 redirect
to the stored URL is returned (Flask `redirect` defaults to 302). -/
def redirect_code (code : String) (st : Store) : Resp × Store :=
  match lookup st code with
  | none => (Resp.textResp 404 "Not found", st)
  | some r => (Resp.redirectResp 302 r.url, incrementClicks st code)

/-- The `redirect_code` handler with a failure model for the click
increment: when `incFails` is true, the `db.execute`/`db.commit` of the
`UPDATE` raises, the exception propagates out of the handler (there is
no `try`/`except`), so no response is built by the handler (`none`;
Flask turns the propagated exception into a 500) and the uncommitted
transaction leaves the store unchanged. -/
def redirect_code_incFail (code : String) (st : Store) (incFails : Bool) :
    Option Resp × Store :=
  match lookup st code with
  | none => (some (Resp.textResp 404 "Not found"), st)
  | some r =>
    if incFails then (none, st)
    else (some (Resp.redirectResp 302 r.url), incrementClicks st code)

/-- The `stats` handler for `GET /stats/<code>`: a pure read; unknown
code gives the JSON 404, otherwise the row is serialised. -/
def stats (code : String) (st : Store) : Resp × Store :=
  match lookup st code with
  | none => (Resp.jsonErr 404 "Not found", st)
  | some r => (Resp.jsonStats 200 r.code r.url r.created_at r.clicks, st)

/-- `n` successive requests to `GET /<code>` (state effect only). -/
def redirectN (code : String) : Nat → Store → Store
  | 0, st => st
  | n + 1, st => redirectN code n (redirect_code code st).2

/-- Store states reachable from the empty table through the three
handlers. -/
inductive Reachable : Store → Prop
  | init : Reachable []
  | shorten_step (req host_url now rho fuel st resp st') :
      Reachable st → shorten req host_url now rho fuel st = some (resp, st') →
      Reachable st'
  | redirect_step (code st) : Reachable st → Reachable (redirect_code code st).2
  | stats_step (code st) : Reachable st → Reachable (stats code st).2

/-- A URL string is well-formed in the sense of the data-model invariant:
its parse has scheme `http` or `https` and a nonempty netloc. -/
def urlOk (u : String) : Bool :=
  ((urlparse u).scheme = "http" || (urlparse u).scheme = "https") &&
  ¬ ((urlparse u).netloc = "")

/-- Every record's URL is well-formed. -/
def storeUrlsOk (st : Store) : Prop :=
  ∀ r ∈ st, urlOk r.url = true

/-- A concrete random oracle (always the first alphabet letter), used to
instantiate theorems at concrete inputs. -/
def rho0 : RandOracle := fun _ _ => ⟨0, by decide⟩

theorem drawCode_len (rho : RandOracle) (i length : Nat) :
    (drawCode rho i length).length = length := by
  simp [drawCode, String.length]

theorem drawCode_mem (rho : RandOracle) (i length : Nat) :
    ∀ ch ∈ (drawCode rho i length).data, ch ∈ ALPHABET := by
  intro ch hch
  simp only [drawCode] at hch
  simp only [List.mem_map, List.mem_range] at hch
  obtain ⟨j, _, hf⟩ := hch
  rw [← hf]
  exact List.get_mem ALPHABET (rho i j).1 (rho i j).2

theorem genLoop_sound (rho : RandOracle) (length : Nat) (st : Store) :
    ∀ fuel i c, genLoop rho length st i fuel = some c →
      c.length = length ∧ (∀ ch ∈ c.data, ch ∈ ALPHABET) ∧ existsCode st c = false ∧
      ∃ k, k < fuel ∧ c = drawCode rho (i + k) length ∧
        ∀ j, j < k → existsCode st (drawCode rho (i + j) length) = true := by
  intro fuel
  induction fuel with
  | zero => intro i c h; simp [genLoop] at h
  | succ n ih =>
    intro i c h
    unfold genLoop at h
    by_cases hex : existsCode st (drawCode rho i length) = true
    · simp only [hex, if_true] at h
      obtain ⟨h1, h2, h3, k, hk, hc, hall⟩ := ih (i + 1) c h
      refine ⟨h1, h2, h3, k + 1, by omega, ?_, ?_⟩
      · have he : i + 1 + k = i + (k + 1) := by omega
        rw [← he]; exact hc
      · intro j hj
        match j, hj with
        | 0, _ => simpa using hex
        | j' + 1, hj =>
          have he : i + 1 + j' = i + (j' + 1) := by omega
          rw [← he]; exact hall j' (by omega)
    · rw [Bool.not_eq_true] at hex
      simp only [hex, Bool.false_eq_true, if_false] at h
      obtain rfl : drawCode rho i length = c := by
        exact Option.some.inj h
      refine ⟨drawCode_len rho i length, drawCode_mem rho i length, hex, 0, by omega, ?_, ?_⟩
      · rw [Nat.add_zero]
      · intro j hj; omega

theorem lookup_append_not_present (st : Store) (r : UrlRecord) (c : String)
    (h : existsCode st c = false) (hr : r.code = c) :
    lookup (st ++ [r]) c = some r := by
  induction st with
  | nil => simp [lookup, List.find?, hr]
  | cons a st ih =>
    by_cases hac : a.code = c
    · exfalso
      simp [existsCode, lookup, List.find?, hac] at h
    · have h' : existsCode st c = false := by
        simpa [existsCode, lookup, List.find?, hac] using h
      simpa [lookup, List.find?, hac] using ih h'

theorem lookup_incrementClicks (st : Store) (c : String) :
    lookup (incrementClicks st c) c =
      (lookup st c).map (fun r => UrlRecord.mk r.code r.url r.created_at (r.clicks + 1)) := by
  induction st with
  | nil => rfl
  | cons a st ih =>
    by_cases hac : a.code = c
    · simp [incrementClicks, lookup, List.find?, hac]
    · simpa [incrementClicks, lookup, List.find?, hac] using ih

theorem mem_incrementClicks (st : Store) (c : String) (r' : UrlRecord)
    (h : r' ∈ incrementClicks st c) :
    ∃ r ∈ st, r'.code = r.code ∧ r'.url = r.url ∧ r'.created_at = r.created_at ∧
      (r'.clicks = r.clicks ∨ r'.clicks = r.clicks + 1) := by
  simp only [incrementClicks, List.mem_map] at h
  obtain ⟨r, hr, hf⟩ := h
  by_cases hac : r.code = c
  · refine ⟨r, hr, ?_⟩
    rw [← hf]
    simp [hac]
  · refine ⟨r, hr, ?_⟩
    rw [← hf]
    simp [hac]

theorem urlOk_of_checks (t u : String)
    (h : (if ¬ ((urlparse t).scheme = "http" ∨ (urlparse t).scheme = "https") then none
          else if (urlparse t).netloc = "" then none else some t) = some u) :
    urlOk u = true := by
  by_cases h1 : (urlparse t).scheme = "http" ∨ (urlparse t).scheme = "https"
  · by_cases h2 : (urlparse t).netloc = ""
    · simp [h1, h2] at h
    · simp [h1, h2] at h
      subst h
      rcases h1 with h1 | h1 <;> simp [urlOk, h1, h2]
  · simp [h1] at h

theorem validate_urlOk (s u : String) (h : validate_and_normalize_url s = some u) :
    urlOk u = true := by
  unfold validate_and_normalize_url at h
  by_cases h0 : s = ""
  · simp [h0] at h
  · simp only [h0, if_false, ite_false] at h
    by_cases hsch : (urlparse (pyStrip s)).scheme = ""
    · simp only [hsch, ite_true, eq_self_iff_true, if_true] at h
      exact urlOk_of_checks _ u h
    · simp only [hsch, ite_false, if_false] at h
      exact urlOk_of_checks _ u h

theorem validateOpt_urlOk (o : Option String) (u : String)
    (h : validateOptUrl o = some u) : urlOk u = true := by
  rcases o with _ | s
  · simp [validateOptUrl] at h
  · exact validate_urlOk s u h

theorem shorten_store_shape (req : ShortenReq) (host_url : String) (now : Nat)
    (rho : RandOracle) (fuel : Nat) (st : Store) (resp : Resp) (st' : Store)
    (h : shorten req host_url now rho fuel st = some (resp, st')) :
    st' = st ∨
    ∃ code u, validateOptUrl req.url = some u ∧
      existsCode st code = false ∧ st' = st ++ [UrlRecord.mk code u now 0] := by
  unfold shorten at h
  rcases hval : validateOptUrl req.url with _ | u
  · rw [hval] at h
    simp only [Option.some.injEq, Prod.mk.injEq] at h
    exact Or.inl h.2.symm
  · rw [hval] at h
    rcases hc : customRequested req.custom with _ | custom
    all_goals rw [hc] at h
    · rcases hg : generate_code rho SHORT_CODE_LENGTH st fuel with _ | code
      · rw [hg] at h
        simp at h
      · rw [hg] at h
        simp only [finishShorten, Option.some.injEq, Prod.mk.injEq] at h
        refine Or.inr ⟨code, u, rfl, ?_, h.2.symm⟩
        exact (genLoop_sound rho SHORT_CODE_LENGTH st fuel 0 code hg).2.2.1
    · by_cases hvc : validCustomChars custom = true
      · by_cases hex : existsCode st custom = true
        · simp only [hvc, hex, not_true_eq_false, if_false, ite_true, ite_false,
            Option.some.injEq, Prod.mk.injEq] at h
          exact Or.inl h.2.symm
        · simp only [hvc, hex, not_true_eq_false, Bool.false_eq_true, if_false,
            ite_false, finishShorten, Option.some.injEq, Prod.mk.injEq] at h
          refine Or.inr ⟨custom, u, rfl, by simpa using hex, h.2.symm⟩
      · simp only [hvc, Bool.false_eq_true, not_false_iff, not_false_eq_true,
          if_true, ite_true, Option.some.injEq, Prod.mk.injEq] at h
        exact Or.inl h.2.symm

theorem shorten_created_shape (req : ShortenReq) (host_url : String) (now : Nat)
    (rho : RandOracle) (fuel : Nat) (st : Store) (resp : Resp) (st' : Store) (su : String)
    (h : shorten req host_url now rho fuel st = some (resp, st'))
    (h201 : resp = Resp.jsonShort 201 su) :
    ∃ code u, validateOptUrl req.url = some u ∧ existsCode st code = false ∧
      su = pyRstripSlash host_url ++ "/" ++ code ∧
      st' = st ++ [UrlRecord.mk code u now 0] := by
  subst h201
  unfold shorten at h
  rcases hval : validateOptUrl req.url with _ | u
  · rw [hval] at h
    simp only [Option.some.injEq, Prod.mk.injEq] at h
    exact absurd h.1.symm (by simp)
  · rw [hval] at h
    rcases hc : customRequested req.custom with _ | custom
    all_goals rw [hc] at h
    · rcases hg : generate_code rho SHORT_CODE_LENGTH st fuel with _ | code
      · rw [hg] at h
        simp at h
      · rw [hg] at h
        simp only [finishShorten, Option.some.injEq, Prod.mk.injEq,
          Resp.jsonShort.injEq] at h
        refine ⟨code, u, rfl, ?_, h.1.2.symm, h.2.symm⟩
        exact (genLoop_sound rho SHORT_CODE_LENGTH st fuel 0 code hg).2.2.1
    · by_cases hvc : validCustomChars custom = true
      · by_cases hex : existsCode st custom = true
        · simp only [hvc, hex, not_true_eq_false, if_false, ite_true, ite_false,
            Option.some.injEq, Prod.mk.injEq] at h
          exact absurd h.1.symm (by simp)
        · simp only [hvc, hex, not_true_eq_false, Bool.false_eq_true, if_false,
            ite_false, finishShorten, Option.some.injEq, Prod.mk.injEq,
            Resp.jsonShort.injEq] at h
          refine ⟨custom, u, rfl, by simpa using hex, h.1.2.symm, h.2.symm⟩
      · simp only [hvc, Bool.false_eq_true, not_false_iff, not_false_eq_true,
          if_true, ite_true, Option.some.injEq, Prod.mk.injEq] at h
        exact absurd h.1.symm (by simp)

theorem trimChars_all_ws (l : List Char) (h : ∀ c ∈ l, pyIsSpace c = true) :
    trimChars l = [] := by
  unfold trimChars
  have h1 : l.dropWhile pyIsSpace = [] := by
    rw [List.dropWhile_eq_nil_iff]
    intro x hx
    exact h x hx
  rw [h1]
  rfl

theorem validate_ws_none (s : String) (h : ∀ c ∈ s.data, pyIsSpace c = true) :
    validate_and_normalize_url s = none := by
  by_cases h0 : s = ""
  · rw [h0]
    rfl
  · have hps : pyStrip s = "" := by
      unfold pyStrip
      rw [trimChars_all_ws s.data h]
    unfold validate_and_normalize_url
    rw [if_neg h0, hps]
    decide

theorem pyIsAlnum_ascii (ch : Char) (h : pyIsAlnum ch = true) (ha : ch.toNat ≤ 0x7F) :
    ch.isAlphanum = true := by
  by_cases hb : ch.isAlphanum = true
  · exact hb
  · exfalso
    rw [Bool.not_eq_true] at hb
    unfold pyIsAlnum at h
    simp only [hb, Bool.false_or, Bool.or_eq_true, Bool.and_eq_true,
      decide_eq_true_eq] at h
    omega

theorem lookup_redirectN (code : String) :
    ∀ (n : Nat) (st : Store) (r : UrlRecord), lookup st code = some r →
      lookup (redirectN code n st) code =
        some (UrlRecord.mk r.code r.url r.created_at (r.clicks + n)) := by
  intro n
  induction n with
  | zero =>
    intro st r h
    cases r with
    | mk a b c d =>
      show lookup st code = _
      rw [h]
      norm_num
  | succ m ih =>
    intro st r h
    show lookup (redirectN code m (redirect_code code st).2) code = _
    have hstep : (redirect_code code st).2 = incrementClicks st code := by
      simp [redirect_code, h]
    rw [hstep]
    have h2 : lookup (incrementClicks st code) code =
        some (UrlRecord.mk r.code r.url r.created_at (r.clicks + 1)) := by
      rw [lookup_incrementClicks, h]
      rfl
    rw [ih (incrementClicks st code) _ h2]
    congr 1
    push_cast
    ring_nf

theorem shorten_new_clicks_zero (req : ShortenReq) (host_url : String) (now : Nat)
    (rho : RandOracle) (fuel : Nat) (st : Store) (resp : Resp) (st' : Store)
    (h : shorten req host_url now rho fuel st = some (resp, st')) :
    ∀ r' ∈ st', r' ∈ st ∨ r'.clicks = 0 := by
  intro r' hr'
  rcases shorten_store_shape req host_url now rho fuel st resp st' h with hst | ⟨c, u, _, _, hst⟩
  · exact Or.inl (hst ▸ hr')
  · rw [hst] at hr'
    rcases List.mem_append.mp hr' with hm | hm
    · exact Or.inl hm
    · right
      rw [List.mem_singleton.mp hm]

theorem redirect_clicks_ge (code : String) (st : Store) (r' : UrlRecord)
    (h : r' ∈ (redirect_code code st).2) :
    ∃ r ∈ st, r'.code = r.code ∧ r'.url = r.url ∧ r.clicks ≤ r'.clicks := by
  rcases hl : lookup st code with _ | r0
  · rw [redirect_code, hl] at h
    exact ⟨r', h, rfl, rfl, le_refl _⟩
  · rw [redirect_code, hl] at h
    obtain ⟨r, hr, hc, hu, _, hck⟩ := mem_incrementClicks st code r' h
    refine ⟨r, hr, hc, hu, ?_⟩
    rcases hck with hck | hck <;> omega

theorem stats_store_unchanged (code : String) (st : Store) : (stats code st).2 = st := by
  rcases hl : lookup st code with _ | r <;> simp [stats, hl]

/-- C1: Round-trip — whenever `shorten` answers 201 with a short URL, the
submitted URL validated to a normalized string `u`, the short URL is the
host (trailing slashes stripped) plus `/` plus the stored code, and
immediately invoking `redirect_code` with that code on the post-shorten
store yields a 302 redirect whose target is exactly `u`, the output of
`validate_and_normalize_url` on the submitted URL. -/
theorem shorten_redirect_roundtrip (req : ShortenReq) (host_url : String) (now : Nat)
    (rho : RandOracle) (fuel : Nat) (st : Store) (resp : Resp) (st' : Store) (su : String)
    (h : shorten req host_url now rho fuel st = some (resp, st'))
    (h201 : resp = Resp.jsonShort 201 su) :
    ∃ code ou u, req.url = some ou ∧ validate_and_normalize_url ou = some u ∧
      su = pyRstripSlash host_url ++ "/" ++ code ∧
      (redirect_code code st').1 = Resp.redirectResp 302 u := by
  obtain ⟨code, u, hval, hex, hsu, hst⟩ :=
    shorten_created_shape req host_url now rho fuel st resp st' su h h201
  rcases hou : req.url with _ | ou
  · rw [hou] at hval
    simp [validateOptUrl] at hval
  · rw [hou] at hval
    refine ⟨code, ou, u, rfl, hval, hsu, ?_⟩
    have hl : lookup (st ++ [UrlRecord.mk code u now 0]) code =
        some (UrlRecord.mk code u now 0) :=
      lookup_append_not_present st _ code hex rfl
    rw [hst]
    simp [redirect_code, hl]

theorem shorten_redirect_roundtrip_witness :
    ∃ code ou u, (some "example.com" : Option String) = some ou ∧
      validate_and_normalize_url ou = some u ∧
      "http://h/abc" = pyRstripSlash "http://h/" ++ "/" ++ code ∧
      (redirect_code code [UrlRecord.mk "abc" "http://example.com" 0 0]).1 =
        Resp.redirectResp 302 u :=
  shorten_redirect_roundtrip ⟨some "example.com", some "abc"⟩ "http://h/" 0 rho0 1 []
    (Resp.jsonShort 201 "http://h/abc") [UrlRecord.mk "abc" "http://example.com" 0 0]
    "http://h/abc" (by decide) rfl

/-- C2: Normalization boundary behavior — `"example.com"` normalizes to
`"http://example.com"`; the empty string and every whitespace-only string
fail; `"ftp://x.com"` fails (scheme not http/https); `"http://"` fails
(empty host). -/
theorem normalize_boundary :
    validate_and_normalize_url "example.com" = some "http://example.com" ∧
    validate_and_normalize_url "" = none ∧
    (∀ s : String, (∀ c ∈ s.data, pyIsSpace c = true) →
      validate_and_normalize_url s = none) ∧
    validate_and_normalize_url "ftp://x.com" = none ∧
    validate_and_normalize_url "http://" = none :=
  ⟨by decide, by decide, fun s hs => validate_ws_none s hs, by decide, by decide⟩

theorem normalize_boundary_witness : validate_and_normalize_url "   " = none :=
  normalize_boundary.2.2.1 "   " (by decide)

/-- C3 counterexample: the custom-code check uses Python's Unicode-aware
`str.isalnum`, so the non-ASCII letter `é` — which is outside
`[A-Za-z0-9_-]` — is accepted: shortening with custom code `"é"` returns
201 and persists the record, refuting the claim that any string containing
a non-ASCII character is rejected. -/
theorem custom_charset_counterexample :
    ('é'.isAlphanum || 'é' = '-' || 'é' = '_') = false ∧
    shorten ⟨some "http://example.com", some "é"⟩ "http://h" 0 rho0 1 [] =
      some (Resp.jsonShort 201 "http://h/é",
            [UrlRecord.mk "é" "http://example.com" 0 0]) :=
  ⟨by decide, by decide⟩

/-- C3 amended: every custom code accepted by `shorten` (response 201 or
409, i.e. past the character check) satisfies the source's check
`all(c.isalnum() or c in ('-','_'))`, and every ASCII character of such a
code is in `[A-Za-z0-9_-]`; non-ASCII alphanumeric characters (e.g. `é`)
are however also accepted, since Python's `str.isalnum` is Unicode-aware. -/
theorem custom_charset_amended (req : ShortenReq) (host_url : String) (now : Nat)
    (rho : RandOracle) (fuel : Nat) (st : Store) (resp : Resp) (st' : Store) (c : String)
    (hc : req.custom = some c) (hne : c ≠ "")
    (h : shorten req host_url now rho fuel st = some (resp, st'))
    (hok : resp.status = 201 ∨ resp.status = 409) :
    validCustomChars c = true ∧
    ∀ ch ∈ c.data, ch.toNat ≤ 0x7F → (ch.isAlphanum || ch = '-' || ch = '_') = true := by
  unfold shorten at h
  rcases hval : validateOptUrl req.url with _ | u
  · rw [hval] at h
    simp only [Option.some.injEq, Prod.mk.injEq] at h
    rw [← h.1] at hok
    simp [Resp.status] at hok
  · rw [hval] at h
    have hcr : customRequested req.custom = some c := by
      rw [hc]
      simp [customRequested, hne]
    rw [hcr] at h
    by_cases hvc : validCustomChars c = true
    · refine ⟨hvc, ?_⟩
      intro ch hch ha
      have hall := hvc
      unfold validCustomChars at hall
      rw [List.all_eq_true] at hall
      have hch' := hall ch hch
      simp only [Bool.or_eq_true, decide_eq_true_eq] at hch' ⊢
      rcases hch' with (hp | hp) | hp
      · exact Or.inl (Or.inl (pyIsAlnum_ascii ch hp ha))
      · exact Or.inl (Or.inr hp)
      · exact Or.inr hp
    · simp only [hvc, Bool.false_eq_true, not_false_iff, not_false_eq_true, if_true,
        ite_true, Option.some.injEq, Prod.mk.injEq] at h
      rw [← h.1] at hok
      simp [Resp.status] at hok

theorem custom_charset_amended_witness : validCustomChars "my-code_1" = true :=
  (custom_charset_amended ⟨some "http://e.com", some "my-code_1"⟩ "http://h" 0 rho0 1 []
    (Resp.jsonShort 201 "http://h/my-code_1") [UrlRecord.mk "my-code_1" "http://e.com" 0 0]
    "my-code_1" rfl (by decide) (by decide) (Or.inl rfl)).1

/-- C4: Click counting — starting from a record with `clicks = 0`,
performing the redirect `n` times and then reading stats reports
`clicks = n`; and the stats operation never changes the store (hence never
changes any clicks value). -/
theorem clicks_counting (code : String) (st : Store) (r : UrlRecord) (n : Nat)
    (h : lookup st code = some r) (h0 : r.clicks = 0) :
    (stats code (redirectN code n st)).1 =
      Resp.jsonStats 200 r.code r.url r.created_at ((n : Nat) : Int) ∧
    ∀ c' st0, (stats c' st0).2 = st0 := by
  constructor
  · have hl := lookup_redirectN code n st r h
    rw [h0] at hl
    simp only [stats, hl]
    norm_num
  · exact stats_store_unchanged

theorem clicks_counting_witness :
    (stats "a" (redirectN "a" 2 [UrlRecord.mk "a" "http://x" 5 0])).1 =
      Resp.jsonStats 200 "a" "http://x" 5 (((2 : Nat)) : Int) :=
  (clicks_counting "a" [UrlRecord.mk "a" "http://x" 5 0] (UrlRecord.mk "a" "http://x" 5 0) 2
    (by decide) rfl).1

/-- C5: Random code generation postcondition — whenever `generate_code`
returns a code, it has exactly `length` characters (and the default
`SHORT_CODE_LENGTH` is 6), every character is drawn from the 62-symbol
`ALPHABET`, the code is unused in the store at that moment, and it is the
first unused draw: some attempt `i` within the fuel produced it and every
earlier draw was already present (the loop repeats draw-and-check with no
upper retry bound — any number of colliding draws just consumes fuel). -/
theorem generate_code_spec (rho : RandOracle) (length : Nat) (st : Store) (fuel : Nat)
    (c : String) (h : generate_code rho length st fuel = some c) :
    SHORT_CODE_LENGTH = 6 ∧ c.length = length ∧ (∀ ch ∈ c.data, ch ∈ ALPHABET) ∧
    existsCode st c = false ∧
    ∃ i, i < fuel ∧ c = drawCode rho i length ∧
      ∀ j, j < i → existsCode st (drawCode rho j length) = true := by
  obtain ⟨h1, h2, h3, k, hk, hc, hall⟩ := genLoop_sound rho length st fuel 0 c h
  refine ⟨rfl, h1, h2, h3, k, hk, ?_, ?_⟩
  · rw [Nat.zero_add] at hc
    exact hc
  · intro j hj
    have hj' := hall j hj
    rw [Nat.zero_add] at hj'
    exact hj'

theorem generate_code_spec_witness : ("aaaaaa" : String).length = 6 :=
  (generate_code_spec rho0 6 [] 1 "aaaaaa" (by decide)).2.1

/-- C6 counterexample: with a stored code `"abc"`, if the click-increment
storage operation fails, the handler produces no response at all (the
exception propagates; Flask turns it into a 500) — in particular it does
not respond with the 302 redirect, refuting the claim that the redirect
still occurs. -/
theorem redirect_incfail_counterexample :
    lookup [UrlRecord.mk "abc" "http://example.com" 0 0] "abc" =
      some (UrlRecord.mk "abc" "http://example.com" 0 0) ∧
    (redirect_code_incFail "abc" [UrlRecord.mk "abc" "http://example.com" 0 0] true).1 =
      none ∧
    (redirect_code_incFail "abc" [UrlRecord.mk "abc" "http://example.com" 0 0] true).1 ≠
      some (Resp.redirectResp 302 "http://example.com") :=
  ⟨by decide, by decide, by decide⟩

/-- C6 amended: the increment is not fire-and-forget — it precedes the
redirect response and has no exception handler, so for every stored code a
failing increment aborts the handler with no 302 (the exception surfaces
as a 500) and leaves the store unchanged; only when the increment succeeds
is the 302 redirect to the stored URL issued. -/
theorem redirect_incfail_amended (code : String) (st : Store) (r : UrlRecord)
    (h : lookup st code = some r) :
    redirect_code_incFail code st true = (none, st) ∧
    redirect_code_incFail code st false =
      (some (Resp.redirectResp 302 r.url), incrementClicks st code) := by
  constructor <;> simp [redirect_code_incFail, h]

theorem redirect_incfail_amended_witness :
    redirect_code_incFail "abc" [UrlRecord.mk "abc" "http://example.com" 0 0] true =
      (none, [UrlRecord.mk "abc" "http://example.com" 0 0]) :=
  (redirect_incfail_amended "abc" [UrlRecord.mk "abc" "http://example.com" 0 0]
    (UrlRecord.mk "abc" "http://example.com" 0 0) (by decide)).1

/-- C7: URL invariant — every string accepted by the validator parses with
scheme exactly `http` or `https` and a nonempty netloc, and all three
handlers preserve the store-wide invariant that every persisted record's
URL is such a string (shorten only inserts validated URLs; redirect and
stats never change any URL). -/
theorem url_scheme_invariant :
    (∀ s u, validate_and_normalize_url s = some u → urlOk u = true) ∧
    (∀ (req : ShortenReq) (host_url : String) (now : Nat) (rho : RandOracle)
       (fuel : Nat) (st : Store) (resp : Resp) (st' : Store), storeUrlsOk st →
      shorten req host_url now rho fuel st = some (resp, st') → storeUrlsOk st') ∧
    (∀ (code : String) (st : Store), storeUrlsOk st →
      storeUrlsOk (redirect_code code st).2) ∧
    (∀ (code : String) (st : Store), storeUrlsOk st →
      storeUrlsOk (stats code st).2) := by
  refine ⟨validate_urlOk, ?_, ?_, ?_⟩
  · intro req host_url now rho fuel st resp st' hst h r hr
    rcases shorten_store_shape req host_url now rho fuel st resp st' h with
      he | ⟨cd, u, hv, _, he⟩
    · exact hst r (he ▸ hr)
    · rw [he] at hr
      rcases List.mem_append.mp hr with hm | hm
      · exact hst r hm
      · rw [List.mem_singleton.mp hm]
        exact validateOpt_urlOk req.url u hv
  · intro code st hst r' hr'
    obtain ⟨r, hr, _, hu, _⟩ := redirect_clicks_ge code st r' hr'
    rw [hu]
    exact hst r hr
  · intro code st hst
    rw [stats_store_unchanged]
    exact hst

theorem url_scheme_invariant_witness : urlOk "http://example.com" = true :=
  url_scheme_invariant.1 "example.com" "http://example.com" (by decide)

/-- C8: Clicks monotonicity — in every store state reachable from the
empty table through the handlers, every record's clicks value is
non-negative; shorten only adds records with `clicks = 0`; redirect leaves
every record's clicks at or above the clicks of the corresponding prior
record (it only adds 1); and stats never writes. -/
theorem clicks_invariant :
    (∀ st, Reachable st → ∀ r ∈ st, 0 ≤ r.clicks) ∧
    (∀ (req : ShortenReq) (host_url : String) (now : Nat) (rho : RandOracle)
       (fuel : Nat) (st : Store) (resp : Resp) (st' : Store),
      shorten req host_url now rho fuel st = some (resp, st') →
      ∀ r' ∈ st', r' ∈ st ∨ r'.clicks = 0) ∧
    (∀ (code : String) (st : Store) (r' : UrlRecord), r' ∈ (redirect_code code st).2 →
      ∃ r ∈ st, r'.code = r.code ∧ r.clicks ≤ r'.clicks) ∧
    (∀ (code : String) (st : Store), (stats code st).2 = st) := by
  refine ⟨?_, shorten_new_clicks_zero, ?_, stats_store_unchanged⟩
  · intro st hreach
    induction hreach with
    | init => intro r hr; simp at hr
    | shorten_step req host_url now rho fuel st0 resp st1 hre hsh ih =>
      intro r hr
      rcases shorten_new_clicks_zero req host_url now rho fuel st0 resp st1 hsh r hr with
        hm | hz
      · exact ih r hm
      · rw [hz]
    | redirect_step code st0 hre ih =>
      intro r' hr'
      obtain ⟨r, hr, _, _, hle⟩ := redirect_clicks_ge code st0 r' hr'
      exact le_trans (ih r hr) hle
    | stats_step code st0 hre ih =>
      intro r hr
      rw [stats_store_unchanged] at hr
      exact ih r hr
  · intro code st r' hr'
    obtain ⟨r, hr, hcd, _, hle⟩ := redirect_clicks_ge code st r' hr'
    exact ⟨r, hr, hcd, hle⟩

theorem clicks_invariant_witness :
    ∃ r ∈ [UrlRecord.mk "abc" "http://example.com" 0 0],
      (UrlRecord.mk "abc" "http://example.com" 0 1).code = r.code ∧
      r.clicks ≤ (UrlRecord.mk "abc" "http://example.com" 0 1).clicks :=
  clicks_invariant.2.2.1 "abc" [UrlRecord.mk "abc" "http://example.com" 0 0]
    (UrlRecord.mk "abc" "http://example.com" 0 1) (by decide)

/-- C9: 404 response asymmetry — for every code absent from the store, the
redirect endpoint answers 404 with the plain-text (non-JSON) body
`"Not found"` while the stats endpoint answers 404 with the JSON body
`{"error": "Not found"}`. -/
theorem notfound_asymmetry (code : String) (st : Store) (h : lookup st code = none) :
    (redirect_code code st).1 = Resp.textResp 404 "Not found" ∧
    (stats code st).1 = Resp.jsonErr 404 "Not found" ∧
    Resp.isJsonBody (redirect_code code st).1 = false ∧
    Resp.isJsonBody (stats code st).1 = true ∧
    ((redirect_code code st).1).status = 404 ∧ ((stats code st).1).status = 404 := by
  simp [redirect_code, stats, h, Resp.isJsonBody, Resp.status]

theorem notfound_asymmetry_witness :
    (redirect_code "zzz" []).1 = Resp.textResp 404 "Not found" ∧
    (stats "zzz" []).1 = Resp.jsonErr 404 "Not found" ∧
    Resp.isJsonBody (redirect_code "zzz" []).1 = false ∧
    Resp.isJsonBody (stats "zzz" []).1 = true ∧
    ((redirect_code "zzz" []).1).status = 404 ∧ ((stats "zzz" []).1).status = 404 :=
  notfound_asymmetry "zzz" [] rfl

/-- C10: An input with no explicit scheme but a colon before the first
slash, such as `"example.com:8080"` or `"localhost:8080"`, is parsed by
`urlparse` with the text before the colon as the scheme, so the no-scheme
branch of the validator is not taken and the scheme check rejects the
input as Invalid. -/
theorem colon_before_slash_rejected :
    (urlparse "example.com:8080").scheme = "example.com" ∧
    (urlparse "localhost:8080").scheme = "localhost" ∧
    validate_and_normalize_url "example.com:8080" = none ∧
    validate_and_normalize_url "localhost:8080" = none :=
  ⟨by decide, by decide, by decide, by decide⟩
